import Mathlib

/-!
Shallow embedding of `src/pixelfed_uploader/upload_queue.py`
(class `UploadQueue`) and proofs about it.

Modelling choices:
* A queue item is the dict built by `UploadQueue.add`, with the same keys.
  Timestamps (`added_at`, `last_attempt`, the `now` of `time.time()` /
  `datetime.now()`) are modelled as integers; the Python code stores ISO
  strings and compares the corresponding POSIX timestamps, and only the
  numeric value of a timestamp ever matters to the queue logic.
* The in-memory queue `self.queue` is a `List QueueItem`.
* Methods that mutate `self.queue` are state-passing functions
  `... → List QueueItem → List QueueItem`; `get_next`, `size` and
  `get_stats` perform no mutation in the source and are pure functions.
* The durable store (the JSON file) is modelled by `Store`: the file can be
  missing, present but failing `json.load`, or present with a parsed JSON
  document.  `json.dump`/`json.load` on the documents that `_save_queue`
  writes are modelled by an explicit JSON value type together with
  serialization and decoding of queue items.
-/

namespace PixelfedUploader

/-- One queue entry: the dict created by `UploadQueue.add`.
`file_path` and `caption` are the caller-supplied strings, `added_at` the
creation timestamp, `retry_count` the number of failed attempts,
`last_attempt` the timestamp of the last failed attempt (`None` before the
first failure) and `error` the last error message (`None` before the first
failure). -/
structure QueueItem where
  file_path : String
  caption : String
  added_at : Int
  retry_count : Nat
  last_attempt : Option Int
  error : Option String
deriving DecidableEq, Repr

/-- The backoff delay (seconds) computed inside `UploadQueue.get_next`
from `item['retry_count']`: the `if/elif` chain giving 0, 10, 30, 60, 120
and then a ceiling of 300. -/
def backoffDelay (retry_count : Nat) : Nat :=
  if retry_count = 0 then 0
  else if retry_count = 1 then 10
  else if retry_count = 2 then 30
  else if retry_count = 3 then 60
  else if retry_count = 4 then 120
  else 300

/-- `UploadQueue.add(file_path, caption="")`: append a fresh item with
`retry_count = 0`, `last_attempt = None`, `error = None`,
`added_at = now`, then persist. -/
def add (file_path caption : String) (now : Int) (q : List QueueItem) :
    List QueueItem :=
  q ++ [{ file_path := file_path, caption := caption, added_at := now,
          retry_count := 0, last_attempt := none, error := none }]

/-- `UploadQueue.get_next()`: scan `self.queue` in order; an item whose
`last_attempt` is `None` is returned at once; otherwise it is returned iff
`now - last_attempt_time >= backoff_delay`; return `None` when no item
qualifies (which subsumes the early `if not self.queue` return). -/
def get_next (now : Int) : List QueueItem → Option QueueItem
  | [] => none
  | item :: rest =>
    match item.last_attempt with
    | none => some item
    | some t =>
      if (backoffDelay item.retry_count : Int) ≤ now - t then some item
      else get_next now rest

/-- `UploadQueue.get_next()` as a state-passing method: the body of the
Python method performs no assignment to `self.queue` and no call to
`_save_queue`, so its embedding returns the queue state unchanged next to
the selected item. -/
def get_next_run (now : Int) (q : List QueueItem) :
    Option QueueItem × List QueueItem :=
  (get_next now q, q)

/-- `UploadQueue.mark_success(item)`: `self.queue.remove(item)` deletes the
first entry equal (`==` on dicts, i.e. structural equality) to `item`; the
`ValueError` raised when no entry matches is caught and logged, so the
queue is left unchanged in that case. -/
def mark_success (item : QueueItem) : List QueueItem → List QueueItem
  | [] => []
  | x :: xs => if x = item then xs else x :: mark_success item xs

/-- The field update performed by `UploadQueue.mark_failure` on the entry
`self.queue[idx]`: `retry_count += 1`, `last_attempt = now`,
`error = error_message`. -/
def failUpdate (now : Int) (error_message : String) (x : QueueItem) :
    QueueItem :=
  { x with retry_count := x.retry_count + 1, last_attempt := some now,
           error := some error_message }

/-- `UploadQueue.mark_failure(item, error)`: `self.queue.index(item)` finds
the first entry equal to `item`, which is updated in place; the
`ValueError` raised when no entry matches is caught and logged, leaving
the queue unchanged. -/
def mark_failure (now : Int) (item : QueueItem) (error_message : String) :
    List QueueItem → List QueueItem
  | [] => []
  | x :: xs =>
    if x = item then failUpdate now error_message x :: xs
    else x :: mark_failure now item error_message xs

/-- `UploadQueue.size()`. -/
def size (q : List QueueItem) : Nat := q.length

/-- The dictionary returned by `UploadQueue.get_stats()`. -/
structure Stats where
  total : Nat
  never_attempted : Nat
  retrying : Nat
  max_retry_count : Nat
deriving DecidableEq, Repr

/-- `UploadQueue.get_stats()`: all-zero counters on an empty queue,
otherwise the length, the counts of items with `last_attempt` unset / set,
and `max(retry_count, default=0)`. -/
def get_stats (q : List QueueItem) : Stats :=
  if q = [] then
    { total := 0, never_attempted := 0, retrying := 0, max_retry_count := 0 }
  else
    { total := q.length
      never_attempted := (q.filter (fun item => item.last_attempt.isNone)).length
      retrying := (q.filter (fun item => item.last_attempt.isSome)).length
      max_retry_count := q.foldr (fun item m => max item.retry_count m) 0 }

/-- JSON documents, as far as the queue's store needs them: the values that
`json.dump` writes for a queue are arrays of objects whose fields are
strings, numbers or `null`. -/
inductive JSON where
  | null : JSON
  | str : String → JSON
  | int : Int → JSON
  | arr : List JSON → JSON
  | obj : List (String × JSON) → JSON

/-- The JSON object `json.dump` writes for one queue item dict. -/
def serializeItem (item : QueueItem) : JSON :=
  .obj [("file_path", .str item.file_path),
        ("caption", .str item.caption),
        ("added_at", .int item.added_at),
        ("retry_count", .int (item.retry_count : Int)),
        ("last_attempt", match item.last_attempt with
                         | none => .null
                         | some t => .int t),
        ("error", match item.error with
                  | none => .null
                  | some e => .str e)]

/-- The JSON array `_save_queue` writes for the whole queue. -/
def serializeQueue (q : List QueueItem) : JSON :=
  .arr (q.map serializeItem)

/-- Decode one queue-item object back into a `QueueItem`; `none` when the
document does not have the shape `_save_queue` produces. -/
def decodeItem : JSON → Option QueueItem
  | .obj fields =>
    match fields.lookup "file_path", fields.lookup "caption",
          fields.lookup "added_at", fields.lookup "retry_count",
          fields.lookup "last_attempt", fields.lookup "error" with
    | some (.str fp), some (.str cap), some (.int at_), some (.int rc),
      some la, some er =>
      if 0 ≤ rc then
        match la, er with
        | .null, .null =>
          some { file_path := fp, caption := cap, added_at := at_,
                 retry_count := rc.toNat, last_attempt := none, error := none }
        | .null, .str e =>
          some { file_path := fp, caption := cap, added_at := at_,
                 retry_count := rc.toNat, last_attempt := none, error := some e }
        | .int t, .null =>
          some { file_path := fp, caption := cap, added_at := at_,
                 retry_count := rc.toNat, last_attempt := some t, error := none }
        | .int t, .str e =>
          some { file_path := fp, caption := cap, added_at := at_,
                 retry_count := rc.toNat, last_attempt := some t, error := some e }
        | _, _ => none
      else none
    | _, _, _, _, _, _ => none
  | _ => none

/-- Decode a list of queue-item objects, failing if any element fails. -/
def decodeItems : List JSON → Option (List QueueItem)
  | [] => some []
  | j :: js =>
    match decodeItem j, decodeItems js with
    | some x, some xs => some (x :: xs)
    | _, _ => none

/-- Decode a whole store document into a queue. -/
def decodeQueue : JSON → Option (List QueueItem)
  | .arr items => decodeItems items
  | _ => none

/-- The durable store (the file at `self.queue_file`): missing, present but
rejected by `json.load` (e.g. invalid JSON), or present with a parsed
document. -/
inductive Store where
  | missing : Store
  | unparsable : Store
  | present : JSON → Store

/-- `UploadQueue._save_queue()`: write the whole queue as one JSON array.
(The `except` branch for an unwritable file is not modelled; the claims
below concern a store the write reached.) -/
def save_queue (q : List QueueItem) : Store :=
  .present (serializeQueue q)

/-- `UploadQueue._load_queue()` (run by the constructor): a missing file
yields `[]`; a present file whose contents `json.load` rejects is caught by
the `except` branch and yields `[]`; otherwise the parsed document is
taken as the queue.  (A document that parses but is not an array of
well-formed item records is kept verbatim by the Python code; no claim
touches that case, and here it decodes to `[]`.) -/
def load_queue : Store → List QueueItem
  | .missing => []
  | .unparsable => []
  | .present j => (decodeQueue j).getD []

/-- Eligibility of one item at time `now`, exactly the test `get_next`
applies to each scanned item: immediately eligible when `last_attempt` is
unset, otherwise eligible iff `now - last_attempt ≥ backoffDelay
retry_count`. -/
def isEligible (now : Int) (item : QueueItem) : Bool :=
  match item.last_attempt with
  | none => true
  | some t => decide ((backoffDelay item.retry_count : Int) ≤ now - t)

/-- The data-model invariant: every item has `retry_count = 0` exactly when
`last_attempt` is unset. -/
def Inv (q : List QueueItem) : Prop :=
  ∀ item ∈ q, item.retry_count = 0 ↔ item.last_attempt = none

instance : DecidablePred Inv := fun q =>
  inferInstanceAs (Decidable (∀ item ∈ q, _ ↔ _))

/-! ### Concrete sample items, used by witnesses and counterexamples -/

/-- A never-attempted item, as `add "a.jpg" ""` creates it at time 0. -/
def itemA : QueueItem :=
  { file_path := "a.jpg", caption := "", added_at := 0,
    retry_count := 0, last_attempt := none, error := none }

/-- An item that failed once at time 0. -/
def itemB : QueueItem :=
  { file_path := "b.jpg", caption := "", added_at := 0,
    retry_count := 1, last_attempt := some 0, error := some "timeout" }

/-- An item distinct from `itemA` and `itemB`. -/
def itemC : QueueItem :=
  { file_path := "c.jpg", caption := "other", added_at := 7,
    retry_count := 0, last_attempt := none, error := none }

/-! ### Helper lemmas -/

theorem mem_of_mem_mark_success {x item : QueueItem} {q : List QueueItem}
    (h : x ∈ mark_success item q) : x ∈ q := by
  induction q with
  | nil => simp [mark_success] at h
  | cons y ys ih =>
    by_cases hy : y = item
    · simp only [mark_success, if_pos hy] at h
      exact List.mem_cons_of_mem _ h
    · simp only [mark_success, if_neg hy, List.mem_cons] at h
      rcases h with h | h
      · exact h ▸ List.mem_cons_self _ _
      · exact List.mem_cons_of_mem _ (ih h)

theorem mark_success_of_not_mem {item : QueueItem} {q : List QueueItem}
    (h : item ∉ q) : mark_success item q = q := by
  induction q with
  | nil => rfl
  | cons y ys ih =>
    have hy : y ≠ item := fun e => h (e ▸ List.mem_cons_self _ _)
    have hys : item ∉ ys := fun m => h (List.mem_cons_of_mem _ m)
    simp [mark_success, hy, ih hys]

theorem mark_success_append {item : QueueItem} {l₁ l₂ : List QueueItem}
    (h : item ∉ l₁) :
    mark_success item (l₁ ++ item :: l₂) = l₁ ++ l₂ := by
  induction l₁ with
  | nil => simp [mark_success]
  | cons y ys ih =>
    have hy : y ≠ item := fun e => h (e ▸ List.mem_cons_self _ _)
    have hys : item ∉ ys := fun m => h (List.mem_cons_of_mem _ m)
    simp [mark_success, hy, ih hys]

theorem mark_failure_of_not_mem {item : QueueItem} {q : List QueueItem}
    (now : Int) (err : String) (h : item ∉ q) :
    mark_failure now item err q = q := by
  induction q with
  | nil => rfl
  | cons y ys ih =>
    have hy : y ≠ item := fun e => h (e ▸ List.mem_cons_self _ _)
    have hys : item ∉ ys := fun m => h (List.mem_cons_of_mem _ m)
    simp [mark_failure, hy, ih hys]

theorem mark_failure_append {item : QueueItem} {l₁ l₂ : List QueueItem}
    (now : Int) (err : String) (h : item ∉ l₁) :
    mark_failure now item err (l₁ ++ item :: l₂) =
      l₁ ++ failUpdate now err item :: l₂ := by
  induction l₁ with
  | nil => simp [mark_failure]
  | cons y ys ih =>
    have hy : y ≠ item := fun e => h (e ▸ List.mem_cons_self _ _)
    have hys : item ∉ ys := fun m => h (List.mem_cons_of_mem _ m)
    simp [mark_failure, hy, ih hys]

theorem first_occurrence_split {item : QueueItem} {q : List QueueItem}
    (h : item ∈ q) :
    ∃ l₁ l₂, q = l₁ ++ item :: l₂ ∧ item ∉ l₁ := by
  induction q with
  | nil => cases h
  | cons y ys ih =>
    by_cases hy : y = item
    · exact ⟨[], ys, by simp [hy], by simp⟩
    · have hmem : item ∈ ys := by
        rcases List.mem_cons.mp h with h' | h'
        · exact absurd h'.symm hy
        · exact h'
      obtain ⟨l₁, l₂, rfl, hl₁⟩ := ih hmem
      exact ⟨y :: l₁, l₂, rfl, by
        intro hc
        rcases List.mem_cons.mp hc with h' | h'
        · exact hy h'.symm
        · exact hl₁ h'⟩

theorem mem_of_mem_mark_failure {x item : QueueItem} {q : List QueueItem}
    {now : Int} {err : String}
    (h : x ∈ mark_failure now item err q) :
    x ∈ q ∨ ∃ y, y ∈ q ∧ x = failUpdate now err y := by
  induction q with
  | nil => simp [mark_failure] at h
  | cons z zs ih =>
    by_cases hz : z = item
    · simp only [mark_failure, if_pos hz, List.mem_cons] at h
      rcases h with h | h
      · exact Or.inr ⟨z, List.mem_cons_self _ _, h⟩
      · exact Or.inl (List.mem_cons_of_mem _ h)
    · simp only [mark_failure, if_neg hz, List.mem_cons] at h
      rcases h with h | h
      · exact Or.inl (h ▸ List.mem_cons_self _ _)
      · rcases ih h with h' | ⟨y, hy, hxy⟩
        · exact Or.inl (List.mem_cons_of_mem _ h')
        · exact Or.inr ⟨y, List.mem_cons_of_mem _ hy, hxy⟩

theorem get_next_mem {now : Int} {q : List QueueItem} {x : QueueItem}
    (h : get_next now q = some x) : x ∈ q := by
  induction q with
  | nil => simp [get_next] at h
  | cons y ys ih =>
    rcases hla : y.last_attempt with _ | t
    · simp only [get_next, hla] at h
      exact (Option.some_inj.mp h) ▸ List.mem_cons_self _ _
    · simp only [get_next, hla] at h
      by_cases hb : (backoffDelay y.retry_count : Int) ≤ now - t
      · rw [if_pos hb] at h
        exact (Option.some_inj.mp h) ▸ List.mem_cons_self _ _
      · rw [if_neg hb] at h
        exact List.mem_cons_of_mem _ (ih h)

theorem get_next_eq_none_iff {now : Int} {q : List QueueItem} :
    get_next now q = none ↔ ∀ item ∈ q, isEligible now item = false := by
  induction q with
  | nil => simp [get_next]
  | cons y ys ih =>
    rcases hla : y.last_attempt with _ | t
    · simp [get_next, hla, isEligible]
    · by_cases hb : (backoffDelay y.retry_count : Int) ≤ now - t
      · simp [get_next, hla, if_pos hb, isEligible, hb]
      · simp [get_next, hla, if_neg hb, isEligible, hb, ih]

theorem get_next_eq_some_first {now : Int} {q : List QueueItem}
    {x : QueueItem} (h : get_next now q = some x) :
    isEligible now x = true ∧
      ∃ l₁ l₂, q = l₁ ++ x :: l₂ ∧ ∀ y ∈ l₁, isEligible now y = false := by
  induction q with
  | nil => simp [get_next] at h
  | cons y ys ih =>
    rcases hla : y.last_attempt with _ | t
    · simp only [get_next, hla] at h
      obtain rfl := Option.some_inj.mp h
      exact ⟨by simp [isEligible, hla], [], ys, rfl, by simp⟩
    · simp only [get_next, hla] at h
      by_cases hb : (backoffDelay y.retry_count : Int) ≤ now - t
      · rw [if_pos hb] at h
        obtain rfl := Option.some_inj.mp h
        exact ⟨by simp [isEligible, hla, hb], [], ys, rfl, by simp⟩
      · rw [if_neg hb] at h
        obtain ⟨hx, l₁, l₂, rfl, hl₁⟩ := ih h
        refine ⟨hx, y :: l₁, l₂, rfl, ?_⟩
        intro z hz
        rcases List.mem_cons.mp hz with rfl | hz'
        · simp [isEligible, hla, hb]
        · exact hl₁ z hz'

theorem get_stats_total (q : List QueueItem) :
    (get_stats q).total = q.length := by
  by_cases h : q = []
  · simp [get_stats, h]
  · simp [get_stats, h]

theorem length_mark_success {item : QueueItem} {q : List QueueItem}
    (h : item ∈ q) :
    (mark_success item q).length + 1 = q.length := by
  obtain ⟨l₁, l₂, rfl, hl₁⟩ := first_occurrence_split h
  rw [mark_success_append hl₁]
  simp [Nat.add_assoc, Nat.add_comm 1]

theorem decodeItem_serializeItem (item : QueueItem) :
    decodeItem (serializeItem item) = some item := by
  rcases item with ⟨fp, cap, at_, rc, la, er⟩
  rcases la with _ | t <;> rcases er with _ | e <;>
    simp [serializeItem, decodeItem, List.lookup, Int.natCast_nonneg,
      Int.toNat_natCast]

theorem decodeQueue_serializeQueue (q : List QueueItem) :
    decodeQueue (serializeQueue q) = some q := by
  induction q with
  | nil => rfl
  | cons x xs ih =>
    simp only [serializeQueue, decodeQueue, List.map_cons, decodeItems,
      decodeItem_serializeItem]
    simp only [serializeQueue, decodeQueue] at ih
    simp [ih]

theorem backoffDelay_of_ge (k : Nat) (h : 5 ≤ k) : backoffDelay k = 300 := by
  unfold backoffDelay
  rw [if_neg (by omega), if_neg (by omega), if_neg (by omega),
    if_neg (by omega), if_neg (by omega)]

/-! ### Claims -/

/-- Claim C1: for every queue state and current time, `get_next` scans the
items in insertion order and returns the first eligible item — an item
with `last_attempt` unset is always eligible, and an item with
`retry_count = k ≥ 1` is eligible iff `now - last_attempt ≥ backoff k` —
and it returns `none` exactly when the queue is empty or no item is
eligible. -/
theorem getNext_first_eligible (now : Int) (q : List QueueItem) :
    (∀ item : QueueItem, item.last_attempt = none →
      isEligible now item = true) ∧
    (∀ (item : QueueItem) (t : Int), item.last_attempt = some t →
      1 ≤ item.retry_count →
      (isEligible now item = true ↔
        (backoffDelay item.retry_count : Int) ≤ now - t)) ∧
    (get_next now q = none ↔ ∀ item ∈ q, isEligible now item = false) ∧
    (∀ item, get_next now q = some item →
      isEligible now item = true ∧
      ∃ l₁ l₂, q = l₁ ++ item :: l₂ ∧
        ∀ y ∈ l₁, isEligible now y = false) := by
  refine ⟨?_, ?_, get_next_eq_none_iff, fun _ h => get_next_eq_some_first h⟩
  · intro item h
    simp [isEligible, h]
  · intro item t h _
    simp [isEligible, h]

theorem getNext_first_eligible_witness :
    (isEligible 100 itemB = true ∧
      ∃ l₁ l₂, ([itemB, itemA] : List QueueItem) = l₁ ++ itemB :: l₂ ∧
        ∀ y ∈ l₁, isEligible 100 y = false) ∧
    get_next 5 [itemB] = none ∧
    (isEligible 5 itemB = true ↔
      (backoffDelay itemB.retry_count : Int) ≤ 5 - 0) :=
  ⟨(getNext_first_eligible 100 [itemB, itemA]).2.2.2 itemB (by decide),
   (getNext_first_eligible 5 [itemB]).2.2.1.mpr (by decide),
   (getNext_first_eligible 5 [itemB]).2.1 itemB 0 (by decide) (by decide)⟩

/-- Claim C2: the backoff function used by `get_next` equals the fixed
table — 10s, 30s, 60s, 120s for `retry_count` 1–4 and 300s for every
`retry_count ≥ 5` — and never exceeds 300 seconds. -/
theorem backoffDelay_table :
    backoffDelay 1 = 10 ∧ backoffDelay 2 = 30 ∧ backoffDelay 3 = 60 ∧
    backoffDelay 4 = 120 ∧ (∀ k, 5 ≤ k → backoffDelay k = 300) ∧
    ∀ k, backoffDelay k ≤ 300 := by
  refine ⟨rfl, rfl, rfl, rfl, fun k hk => backoffDelay_of_ge k hk, ?_⟩
  intro k
  rcases Nat.lt_or_ge k 5 with h | h
  · interval_cases k <;> decide
  · rw [backoffDelay_of_ge k h]

theorem backoffDelay_table_witness :
    backoffDelay 12 = 300 ∧ backoffDelay 12 ≤ 300 :=
  ⟨backoffDelay_table.2.2.2.2.1 12 (by decide),
   backoffDelay_table.2.2.2.2.2 12⟩

/-- Claim C3: `get_next` never mutates the queue state, and it is an
idempotent peek: two consecutive calls at the same time, with no
intervening `mark_success` or `mark_failure`, return the same item (or
both `none`) and leave the queue unchanged. -/
theorem getNext_readonly_idempotent (now : Int) (q : List QueueItem) :
    (get_next_run now q).2 = q ∧
    (get_next_run now (get_next_run now q).2).1 = (get_next_run now q).1 ∧
    (get_next_run now (get_next_run now q).2).2 = q :=
  ⟨rfl, rfl, rfl⟩

/-- Counterexample to claim C4 as stated: in the queue `[itemA, itemA]`,
removing `itemA` by `mark_success` leaves an entry with identical field
values, which a subsequent `get_next` returns — so "the removed item is
not returned by subsequent get_next calls" fails under the structural
equality the code matches by. -/
theorem markSuccess_removes_counterexample :
    itemA ∈ [itemA, itemA] ∧
    get_next 0 (mark_success itemA [itemA, itemA]) = some itemA := by
  decide

/-- Claim C4 (amended): for every queue containing the item,
`mark_success` removes one occurrence, so the `total` reported by
`get_stats` decreases by exactly 1, and — provided no occurrence equal to
the item remains after the removal — the item is not returned by a
subsequent `get_next`; for every queue not containing the item,
`mark_success` is a no-op (the `ValueError` is caught, never raised). -/
theorem markSuccess_removes (item : QueueItem) (q : List QueueItem)
    (now : Int) :
    (item ∈ q →
      (get_stats (mark_success item q)).total + 1 = (get_stats q).total ∧
      (item ∉ mark_success item q →
        get_next now (mark_success item q) ≠ some item)) ∧
    (item ∉ q → mark_success item q = q) := by
  constructor
  · intro hmem
    refine ⟨?_, ?_⟩
    · rw [get_stats_total, get_stats_total]
      exact length_mark_success hmem
    · intro habs hcontra
      exact habs (get_next_mem hcontra)
  · exact mark_success_of_not_mem

theorem markSuccess_removes_witness :
    ((get_stats (mark_success itemA [itemA])).total + 1 =
        (get_stats [itemA]).total ∧
      get_next 0 (mark_success itemA [itemA]) ≠ some itemA) ∧
    mark_success itemC [itemA] = [itemA] :=
  ⟨⟨((markSuccess_removes itemA [itemA] 0).1 (by decide)).1,
    ((markSuccess_removes itemA [itemA] 0).1 (by decide)).2 (by decide)⟩,
   (markSuccess_removes itemC [itemA] 0).2 (by decide)⟩

/-- Claim C5: for every queue containing the item, `mark_failure`
increments that item's `retry_count` by exactly 1, sets its
`last_attempt` to the current time and its `error` to the message, while
leaving the item's `file_path`, `caption` and `added_at`, and every other
entry of the queue, unchanged; it is a no-op if the item is not found. -/
theorem markFailure_updates_first (now : Int) (item : QueueItem)
    (err : String) (q : List QueueItem) :
    (item ∈ q → ∃ l₁ l₂ u, q = l₁ ++ item :: l₂ ∧ item ∉ l₁ ∧
      mark_failure now item err q = l₁ ++ u :: l₂ ∧
      u.retry_count = item.retry_count + 1 ∧ u.last_attempt = some now ∧
      u.error = some err ∧ u.file_path = item.file_path ∧
      u.caption = item.caption ∧ u.added_at = item.added_at) ∧
    (item ∉ q → mark_failure now item err q = q) := by
  constructor
  · intro hmem
    obtain ⟨l₁, l₂, rfl, hl₁⟩ := first_occurrence_split hmem
    exact ⟨l₁, l₂, failUpdate now err item, rfl, hl₁,
      mark_failure_append now err hl₁, rfl, rfl, rfl, rfl, rfl, rfl⟩
  · exact mark_failure_of_not_mem now err

theorem markFailure_updates_first_witness :
    ∃ l₁ l₂ u, ([itemB, itemA] : List QueueItem) = l₁ ++ itemA :: l₂ ∧
      itemA ∉ l₁ ∧
      mark_failure 9 itemA "boom" [itemB, itemA] = l₁ ++ u :: l₂ ∧
      u.retry_count = itemA.retry_count + 1 ∧ u.last_attempt = some 9 ∧
      u.error = some "boom" ∧ u.file_path = itemA.file_path ∧
      u.caption = itemA.caption ∧ u.added_at = itemA.added_at :=
  (markFailure_updates_first 9 itemA "boom" [itemB, itemA]).1 (by decide)

/-- Counterexample to claim C6 as stated: starting from `[itemA, itemA]`,
`mark_success itemA` removes one occurrence; invoking
`mark_failure` on the already-removed `itemA` then finds the remaining
entry with equal field values and mutates it, so the queue state does
change. -/
theorem markFailure_removed_counterexample :
    mark_success itemA [itemA, itemA] = [itemA] ∧
    mark_failure 5 itemA "boom" (mark_success itemA [itemA, itemA]) ≠
      mark_success itemA [itemA, itemA] := by
  decide

/-- Claim C6 (amended): calling `mark_failure` on an item that has been
removed by `mark_success` raises no exception and leaves the queue
unchanged, provided no entry with field values equal to the removed
item's remains in the queue; if such an equal-valued entry remains, the
code updates the first such occurrence instead. -/
theorem markFailure_removed_noop (now : Int) (item : QueueItem)
    (err : String) (q : List QueueItem) :
    item ∉ mark_success item q →
    mark_failure now item err (mark_success item q) = mark_success item q :=
  fun h => mark_failure_of_not_mem now err h

theorem markFailure_removed_noop_witness :
    mark_failure 5 itemA "boom" (mark_success itemA [itemA, itemB]) =
      mark_success itemA [itemA, itemB] :=
  markFailure_removed_noop 5 itemA "boom" [itemA, itemB] (by decide)

/-- Claim C7: round-trip of persistence — serializing a queue to the
store and constructing a fresh queue from that store yields exactly the
same items, with identical field values, in the same order. -/
theorem persistence_roundtrip (q : List QueueItem) :
    load_queue (save_queue q) = q := by
  simp [load_queue, save_queue, decodeQueue_serializeQueue]

/-- Claim C8: constructing a queue from a missing store yields an empty
queue, and constructing one from a present but unparsable store also
yields an empty queue; both embeddings are total functions, matching the
code's catch-all `except` branch — startup never fails. -/
theorem load_missing_or_unparsable_empty :
    load_queue .missing = [] ∧ load_queue .unparsable = [] :=
  ⟨rfl, rfl⟩

/-- Claim C9: the invariant "`retry_count = 0` iff `last_attempt` is
unset" holds of the empty queue and is preserved by `add`,
`mark_success` and `mark_failure`; `add` establishes it on the fresh item
(`retry_count = 0`, `last_attempt = none`, `error = none`) and the update
`mark_failure` applies yields `retry_count > 0` with `last_attempt`
set. -/
theorem queue_invariant :
    Inv [] ∧
    (∀ fp cap (t : Int) q, Inv q → Inv (add fp cap t q)) ∧
    (∀ item q, Inv q → Inv (mark_success item q)) ∧
    (∀ (now : Int) item err q, Inv q → Inv (mark_failure now item err q)) ∧
    (∀ fp cap (t : Int) q, ∃ u, add fp cap t q = q ++ [u] ∧
      u.retry_count = 0 ∧ u.last_attempt = none ∧ u.error = none) ∧
    (∀ (now : Int) err x, 0 < (failUpdate now err x).retry_count ∧
      (failUpdate now err x).last_attempt = some now) := by
  refine ⟨?_, ?_, ?_, ?_, ?_, ?_⟩
  · intro item h
    cases h
  · intro fp cap t q hq item hmem
    rcases List.mem_append.mp hmem with h | h
    · exact hq item h
    · rcases List.mem_singleton.mp h with rfl
      simp
  · intro item q hq x hx
    exact hq x (mem_of_mem_mark_success hx)
  · intro now item err q hq x hx
    rcases mem_of_mem_mark_failure hx with h | ⟨y, _, rfl⟩
    · exact hq x h
    · constructor
      · intro h
        simp [failUpdate] at h
      · intro h
        simp [failUpdate] at h
  · intro fp cap t q
    exact ⟨_, rfl, rfl, rfl, rfl⟩
  · intro now err x
    simp [failUpdate]

theorem queue_invariant_witness :
    Inv (mark_failure 4 itemA "oops" [itemA]) ∧
    Inv (add "d.jpg" "" 2 [itemB]) :=
  ⟨queue_invariant.2.2.2.1 4 itemA "oops" [itemA] (by decide),
   queue_invariant.2.1 "d.jpg" "" 2 [itemB] (by decide)⟩

/-- Claim C10 (implicit): items are matched by structural equality of all
fields, not by a stable identity key.  For a queue whose first occurrence
of `item` is followed by another equal occurrence, `mark_success` removes
exactly the first occurrence — the length drops by exactly one and an
equal entry remains — and `mark_failure` updates exactly the first
occurrence equal to the given item, whichever stored entry the caller
actually obtained from `get_next`. -/
theorem mark_ops_value_equality (now : Int) (err : String)
    (item : QueueItem) (l₁ l₂ : List QueueItem)
    (h₁ : item ∉ l₁) (h₂ : item ∈ l₂) :
    mark_success item (l₁ ++ item :: l₂) = l₁ ++ l₂ ∧
    (mark_success item (l₁ ++ item :: l₂)).length + 1 =
      (l₁ ++ item :: l₂).length ∧
    item ∈ mark_success item (l₁ ++ item :: l₂) ∧
    mark_failure now item err (l₁ ++ item :: l₂) =
      l₁ ++ failUpdate now err item :: l₂ := by
  refine ⟨mark_success_append h₁, ?_, ?_, mark_failure_append now err h₁⟩
  · rw [mark_success_append h₁]
    simp [List.length_append]
    omega
  · rw [mark_success_append h₁]
    exact List.mem_append_right _ h₂

theorem mark_ops_value_equality_witness :
    mark_success itemA ([itemB] ++ itemA :: [itemA]) = [itemB] ++ [itemA] ∧
    (mark_success itemA ([itemB] ++ itemA :: [itemA])).length + 1 =
      ([itemB] ++ itemA :: [itemA]).length ∧
    itemA ∈ mark_success itemA ([itemB] ++ itemA :: [itemA]) ∧
    mark_failure 3 itemA "err" ([itemB] ++ itemA :: [itemA]) =
      [itemB] ++ failUpdate 3 "err" itemA :: [itemA] :=
  mark_ops_value_equality 3 "err" itemA [itemB] [itemA]
    (by decide) (by decide)

end PixelfedUploader
